import Mathlib

/-!
Shallow embedding of the LDraw parser in `ldraw/src/parser.rs` (the core of
the `ldraw.rs` repository): the whitespace lexer, the typed token readers,
the per-line-type grammar, the document assembler, the multi-document
driver, and the palette (colour definition) parser.  Rust `f32` values are
represented by exact rationals (the claims exercise only decimally exact
values); machine integers are `Nat` with explicit caps.  All data types
declared outside the parser file (`color.rs`, `document.rs`, `elements.rs`,
`error.rs`) are reconstructed from the spec's data model section and from
their construction sites inside the parser.
-/

namespace LDraw

/-- `is_whitespace` from parser.rs: the tokenizer's whitespace set. -/
def is_ws (ch : Char) : Bool :=
  ch == ' ' || ch == '\t' || ch == '\r' || ch == '\n'

/-- Rust `char::is_whitespace` (the Unicode `White_Space` property), used by
`str::trim_end` inside `next_token`. -/
def rustIsWhitespace (c : Char) : Bool :=
  (0x09 ≤ c.toNat && c.toNat ≤ 0x0D) || c.toNat == 0x20 || c.toNat == 0x85 ||
  c.toNat == 0xA0 || c.toNat == 0x1680 ||
  (0x2000 ≤ c.toNat && c.toNat ≤ 0x200A) || c.toNat == 0x2028 ||
  c.toNat == 0x2029 || c.toNat == 0x202F || c.toNat == 0x205F ||
  c.toNat == 0x3000

/-- Rust `str::trim_end`: drop the trailing run of whitespace characters. -/
def trimEnd (cs : List Char) : List Char :=
  (cs.reverse.dropWhile rustIsWhitespace).reverse

/-- The error enum `ParseError` of error.rs, reconstructed from its
construction sites in parser.rs and the spec's error-kind list (the
I/O-error variant is not modelled: the line source is embedded as a pure
list of strings). -/
inductive ParseError where
  | EndOfLine
  | TypeMismatch (expected : String) (token : String)
  | InvalidToken (token : String)
  | InvalidBfcStatement (stmt : String)
  | UnexpectedCommand (token : String)
  | MultipartDocument
  deriving DecidableEq, Repr

/-- The loop of `next_token`: accumulate non-whitespace into `buf`; on
whitespace with a non-empty buffer stop (non-glob) or keep accumulating
(glob); leading whitespace is skipped.  Returns (buffer, remaining chars);
in the Rust code the remaining characters are what is left in the shared
`Chars` iterator. -/
def nextTokenGo (glob : Bool) (buf : List Char) : List Char → List Char × List Char
  | [] => (buf, [])
  | c :: rest =>
    if !is_ws c then nextTokenGo glob (buf ++ [c]) rest
    else if !buf.isEmpty then
      if !glob then (buf, rest) else nextTokenGo glob (buf ++ [c]) rest
    else nextTokenGo glob buf rest

/-- `next_token` from parser.rs: empty buffer is the benign `EndOfLine`;
otherwise the buffer, right-trimmed. -/
def nextToken (cs : List Char) (glob : Bool) : Except ParseError String × List Char :=
  let (buf, rest) := nextTokenGo glob [] cs
  if buf.isEmpty then (.error .EndOfLine, rest)
  else (.ok (String.mk (trimEnd buf)), rest)

/-- Rust `char::to_digit(radix)`. -/
def digitValue (radix : Nat) (c : Char) : Option Nat :=
  let v : Option Nat :=
    if '0' ≤ c && c ≤ '9' then some (c.toNat - 48)
    else if 'a' ≤ c && c ≤ 'z' then some (c.toNat - 97 + 10)
    else if 'A' ≤ c && c ≤ 'Z' then some (c.toNat - 65 + 10)
    else none
  match v with
  | some d => if d < radix then some d else none
  | none => none

/-- Digit-accumulation part of Rust `from_str_radix` for an unsigned type
with maximum value `cap`; fails on an invalid digit or on overflow. -/
def parseDigits (radix cap : Nat) : List Char → Nat → Option Nat
  | [], acc => some acc
  | c :: rest, acc =>
    match digitValue radix c with
    | none => none
    | some d =>
      let acc' := acc * radix + d
      if acc' ≤ cap then parseDigits radix cap rest acc' else none

/-- Rust `uN::from_str_radix` (and `str::parse::<uN>()` at radix 10): an
optional leading `+` (a bare sign or a `-` on an unsigned type is an
error), then one or more digits. -/
def fromStrRadix (radix cap : Nat) (cs : List Char) : Option Nat :=
  match cs with
  | [] => none
  | '+' :: rest => if rest.isEmpty then none else parseDigits radix cap rest 0
  | _ :: _ => if cs.head? == some '+' then none else parseDigits radix cap cs 0

def u32cap : Nat := 4294967295
def u8cap : Nat := 255

/-- `next_token_u32` from parser.rs: a token starting with `0x` is parsed
as hexadecimal with those two characters stripped, otherwise as base-10. -/
def nextTokenU32 (cs : List Char) : Except ParseError Nat × List Char :=
  match nextToken cs false with
  | (.error e, rest) => (.error e, rest)
  | (.ok token, rest) =>
    match token.data with
    | '0' :: 'x' :: trimmed =>
      match fromStrRadix 16 u32cap trimmed with
      | some v => (.ok v, rest)
      | none => (.error (.TypeMismatch "u32" token), rest)
    | _ =>
      match fromStrRadix 10 u32cap token.data with
      | some v => (.ok v, rest)
      | none => (.error (.TypeMismatch "u32" token), rest)

/-- Rust `str::parse::<f32>()`, modelled over exact rationals: an optional
sign, decimal digits with an optional fractional part (at least one
mantissa digit), and an optional decimal exponent; the exact decimal value
is assembled with `mkRat`.  The IEEE special forms (`inf`, `NaN`) and
rounding to binary have no exact-rational counterpart and are not
modelled; every claim exercises only decimally exact values. -/
def parseF32 (s : String) : Option ℚ :=
  let (neg, cs) : Bool × List Char :=
    match s.data with
    | '+' :: rest => (false, rest)
    | '-' :: rest => (true, rest)
    | cs => (false, cs)
  let ipart := cs.takeWhile (fun c => c.isDigit)
  let cs1 := cs.dropWhile (fun c => c.isDigit)
  let (fpart, cs2) : List Char × List Char :=
    match cs1 with
    | '.' :: rest => (rest.takeWhile (fun c => c.isDigit), rest.dropWhile (fun c => c.isDigit))
    | _ => ([], cs1)
  if ipart.isEmpty && fpart.isEmpty then none
  else
    let mant : Nat := (ipart ++ fpart).foldl (fun acc c => acc * 10 + (c.toNat - 48)) 0
    let sgn : Int → Int := fun n => if neg then -n else n
    match cs2 with
    | [] => some (mkRat (sgn mant) (10 ^ fpart.length))
    | e :: rest =>
      if e == 'e' || e == 'E' then
        let (eneg, ds) : Bool × List Char :=
          match rest with
          | '+' :: r => (false, r)
          | '-' :: r => (true, r)
          | r => (false, r)
        if ds.isEmpty || !(ds.all (fun c => c.isDigit)) then none
        else
          let ev : Nat := ds.foldl (fun acc c => acc * 10 + (c.toNat - 48)) 0
          if eneg then some (mkRat (sgn mant) (10 ^ (fpart.length + ev)))
          else some (mkRat (sgn (mant * 10 ^ ev)) (10 ^ fpart.length))
      else none

/-- Decidable equality of `Except` results, used to evaluate the parsers on
concrete inputs inside proofs. -/
instance {ε α : Type} [DecidableEq ε] [DecidableEq α] : DecidableEq (Except ε α)
  | .error x, .error y =>
    if h : x = y then .isTrue (by rw [h]) else .isFalse (by intro hc; cases hc; exact h rfl)
  | .error _, .ok _ => .isFalse (by intro hc; cases hc)
  | .ok _, .error _ => .isFalse (by intro hc; cases hc)
  | .ok x, .ok y =>
    if h : x = y then .isTrue (by rw [h]) else .isFalse (by intro hc; cases hc; exact h rfl)

/-- `next_token_f32` from parser.rs. -/
def nextTokenF32 (cs : List Char) : Except ParseError ℚ × List Char :=
  match nextToken cs false with
  | (.error e, rest) => (.error e, rest)
  | (.ok token, rest) =>
    match parseF32 token with
    | some v => (.ok v, rest)
    | none => (.error (.TypeMismatch "f32" token), rest)

/-- `next_token_rgb` from parser.rs: the next raw character must be `#`;
then three groups of (up to) two characters are taken from the iterator and
each parsed as a hexadecimal `u8`. -/
def nextTokenRgb (cs : List Char) : Except ParseError (Nat × Nat × Nat) × List Char :=
  match cs with
  | [] => (.error .EndOfLine, [])
  | c :: rest =>
    if c != '#' then (.error (.InvalidToken (String.mk [c])), rest)
    else
      let rs := rest.take 2
      let cs1 := rest.drop 2
      let gs := cs1.take 2
      let cs2 := cs1.drop 2
      let bs := cs2.take 2
      let cs3 := cs2.drop 2
      match fromStrRadix 16 u8cap rs with
      | none => (.error (.TypeMismatch "u8" (String.mk rs)), cs3)
      | some r =>
        match fromStrRadix 16 u8cap gs with
        | none => (.error (.TypeMismatch "u8" (String.mk gs)), cs3)
        | some g =>
          match fromStrRadix 16 u8cap bs with
          | none => (.error (.TypeMismatch "u8" (String.mk bs)), cs3)
          | some b => (.ok (r, g, b), cs3)

/-! ## Data model (spec section 3; types declared in color.rs / document.rs /
elements.rs, reconstructed from the spec and their uses in parser.rs) -/

inductive Winding where
  | Cw
  | Ccw
  deriving DecidableEq, Repr

inductive BfcCertification where
  | NotApplicable
  | NoCertify
  | Certify (w : Winding)
  deriving DecidableEq, Repr

inductive BfcStatement where
  | winding (w : Winding)
  | clip (w : Option Winding)
  | noClip
  | invertNext
  deriving DecidableEq, Repr

/-- The tuple struct `Header(String, String)` of elements.rs: a header key
and its value. -/
structure Header where
  key : String
  value : String
  deriving DecidableEq, Repr

inductive Meta where
  | comment (text : String)
  | step
  | write (text : String)
  | print (text : String)
  | clear
  | pause
  | save
  | bfc (stmt : BfcStatement)
  deriving DecidableEq, Repr

/-- `Rgba` of color.rs (`Rgba::new(r, g, b, a)`); the four `u8` channels are
naturals below 256. -/
structure Rgba where
  red : Nat
  green : Nat
  blue : Nat
  alpha : Nat
  deriving DecidableEq, Repr

def Rgba.new (r g b a : Nat) : Rgba := ⟨r, g, b, a⟩

structure MaterialGlitter where
  value : Rgba
  luminance : Nat
  fraction : ℚ
  vfraction : ℚ
  size : Nat
  minsize : ℚ
  maxsize : ℚ
  deriving DecidableEq, Repr

structure MaterialSpeckle where
  value : Rgba
  luminance : Nat
  fraction : ℚ
  size : Nat
  minsize : ℚ
  maxsize : ℚ
  deriving DecidableEq, Repr

inductive CustomizedMaterial where
  | Glitter (g : MaterialGlitter)
  | Speckle (s : MaterialSpeckle)
  deriving DecidableEq, Repr

inductive Finish where
  | Plastic
  | Chrome
  | Pearlescent
  | Metal
  | Rubber
  | MatteMetallic
  | Custom (c : CustomizedMaterial)
  deriving DecidableEq, Repr

structure Material where
  code : Nat
  name : String
  color : Rgba
  edge : Rgba
  luminance : Nat
  finish : Finish
  deriving DecidableEq, Repr

/-- `MaterialRegistry` (a `HashMap<u32, Material>`), embedded as an
association list whose `insert` replaces any earlier binding of the same
code. -/
abbrev MaterialRegistry := List (Nat × Material)

def MaterialRegistry.insert (reg : MaterialRegistry) (code : Nat) (m : Material) : MaterialRegistry :=
  (code, m) :: List.filter (fun p => p.1 != code) reg

def MaterialRegistry.lookup (reg : MaterialRegistry) (code : Nat) : Option Material :=
  (List.find? (fun p => p.1 == code) reg).map (fun p => p.2)

/-- Modelled from the spec (sections 3 and 4.4): `ColorReference` is a
tagged union `Material(Material) | DirectOrPlaceholder(raw code)`; color.rs
is outside the embedded sources. -/
inductive ColorReference where
  | material (m : Material)
  | unknown (code : Nat)
  deriving DecidableEq, Repr

/-- Modelled from the spec (section 4.4): resolution yields the registry's
material when the code is present and otherwise preserves the raw numeric
code; it never fails. -/
def ColorReference.resolve (code : Nat) (reg : MaterialRegistry) : ColorReference :=
  match reg.lookup code with
  | some m => .material m
  | none => .unknown code

/-- Modelled from the spec (glossary): `PartAlias` is a normalized string
key identifying a model; the normalization itself lives outside the
embedded sources and is modelled as the identity on the name. -/
structure PartAlias where
  normalized : String
  deriving DecidableEq, Repr

def PartAlias.fromString (s : String) : PartAlias := ⟨s⟩

/-- `cgmath::Vector4::new`. -/
structure Vector4 where
  x : ℚ
  y : ℚ
  z : ℚ
  w : ℚ
  deriving DecidableEq, Repr

def Vector4.new (x y z w : ℚ) : Vector4 := ⟨x, y, z, w⟩

/-- `cgmath::Matrix4`: four column vectors `x, y, z, w`. -/
structure Matrix4 where
  x : Vector4
  y : Vector4
  z : Vector4
  w : Vector4
  deriving DecidableEq, Repr

/-- `cgmath::Matrix4::new(c0r0, c0r1, c0r2, c0r3, c1r0, …, c3r3)`: the
sixteen scalars are given column by column. -/
def Matrix4.new (c0r0 c0r1 c0r2 c0r3 c1r0 c1r1 c1r2 c1r3
    c2r0 c2r1 c2r2 c2r3 c3r0 c3r1 c3r2 c3r3 : ℚ) : Matrix4 :=
  ⟨⟨c0r0, c0r1, c0r2, c0r3⟩, ⟨c1r0, c1r1, c1r2, c1r3⟩,
   ⟨c2r0, c2r1, c2r2, c2r3⟩, ⟨c3r0, c3r1, c3r2, c3r3⟩⟩

/-- `cgmath::Matrix::transpose`. -/
def Matrix4.transpose (m : Matrix4) : Matrix4 :=
  ⟨⟨m.x.x, m.y.x, m.z.x, m.w.x⟩, ⟨m.x.y, m.y.y, m.z.y, m.w.y⟩,
   ⟨m.x.z, m.y.z, m.z.z, m.w.z⟩, ⟨m.x.w, m.y.w, m.z.w, m.w.w⟩⟩

/-- Row `i` of the matrix as a 4-tuple (cgmath stores columns). -/
def Matrix4.row0 (m : Matrix4) : ℚ × ℚ × ℚ × ℚ := (m.x.x, m.y.x, m.z.x, m.w.x)
def Matrix4.row1 (m : Matrix4) : ℚ × ℚ × ℚ × ℚ := (m.x.y, m.y.y, m.z.y, m.w.y)
def Matrix4.row2 (m : Matrix4) : ℚ × ℚ × ℚ × ℚ := (m.x.z, m.y.z, m.z.z, m.w.z)
def Matrix4.row3 (m : Matrix4) : ℚ × ℚ × ℚ × ℚ := (m.x.w, m.y.w, m.z.w, m.w.w)

structure PartReference where
  color : ColorReference
  matrix : Matrix4
  name : PartAlias
  deriving DecidableEq, Repr

structure Line where
  color : ColorReference
  a : Vector4
  b : Vector4
  deriving DecidableEq, Repr

structure Triangle where
  color : ColorReference
  a : Vector4
  b : Vector4
  c : Vector4
  deriving DecidableEq, Repr

structure Quad where
  color : ColorReference
  a : Vector4
  b : Vector4
  c : Vector4
  d : Vector4
  deriving DecidableEq, Repr

structure OptionalLine where
  color : ColorReference
  a : Vector4
  b : Vector4
  c : Vector4
  d : Vector4
  deriving DecidableEq, Repr

inductive Command where
  | partReference (p : PartReference)
  | line (l : Line)
  | triangle (t : Triangle)
  | quad (q : Quad)
  | optionalLine (o : OptionalLine)
  | meta (m : Meta)
  deriving DecidableEq, Repr

structure Document where
  name : String
  description : String
  author : String
  bfc : BfcCertification
  headers : List Header
  commands : List Command
  deriving DecidableEq, Repr

structure MultipartDocument where
  body : Document
  subparts : List (PartAlias × Document)
  deriving DecidableEq, Repr

def insertSubpart (subs : List (PartAlias × Document)) (k : PartAlias) (d : Document) :
    List (PartAlias × Document) :=
  (k, d) :: List.filter (fun p => p.1 != k) subs

/-- `DocumentParseError` of error.rs: the 1-based input line number paired
with the error kind. -/
structure DocumentParseError where
  line : Nat
  error : ParseError
  deriving DecidableEq, Repr

/-- `ColorDefinitionParseError` of error.rs, reconstructed from its
construction sites in parser.rs: the palette parser's own grammar errors
carry a `ParseError` or an unknown-material token, with no line number;
errors of the inner single-document parse are propagated verbatim. -/
inductive ColorDefinitionParseError where
  | parseError (e : ParseError)
  | unknownMaterial (token : String)
  | documentParseError (e : DocumentParseError)
  deriving DecidableEq, Repr

/-- The line number carried by a colour-definition error, when one is
present (used to state the claim that every surfaced error is a
(line, kind) pair). -/
def ColorDefinitionParseError.lineNumber : ColorDefinitionParseError → Option Nat
  | .documentParseError e => some e.line
  | _ => none

/-! ## Line grammar (parser.rs `Line0`, `parse_bfc_statement`,
`parse_line_0` … `parse_line_5`) -/

/-- The internal `Line0` enum of parser.rs: the decoded result of a type-0
line. -/
inductive Line0 where
  | header (h : Header)
  | meta (m : Meta)
  | file (name : String)
  | name (name : String)
  | author (name : String)
  | bfcCertification (b : BfcCertification)
  deriving DecidableEq, Repr

/-- `parse_bfc_statement` from parser.rs: glob the remainder of the line
and match it against the literal BFC phrases. -/
def parseBfcStatement (cs : List Char) : Except ParseError Line0 :=
  match nextToken cs true with
  | (.error e, _) => .error e
  | (.ok stmt, _) =>
    match stmt with
    | "NOCERTIFY" => .ok (.bfcCertification .NoCertify)
    | "CERTIFY" => .ok (.bfcCertification (.Certify .Ccw))
    | "CERTIFY CCW" => .ok (.bfcCertification (.Certify .Ccw))
    | "CERTIFY CW" => .ok (.bfcCertification (.Certify .Cw))
    | "CW" => .ok (.meta (.bfc (.winding .Cw)))
    | "CCW" => .ok (.meta (.bfc (.winding .Ccw)))
    | "CLIP" => .ok (.meta (.bfc (.clip none)))
    | "CLIP CW" => .ok (.meta (.bfc (.clip (some .Cw))))
    | "CLIP CCW" => .ok (.meta (.bfc (.clip (some .Ccw))))
    | "NOCLIP" => .ok (.meta (.bfc .noClip))
    | "INVERTNEXT" => .ok (.meta (.bfc .invertNext))
    | _ => .error (.InvalidBfcStatement stmt)

/-- `parse_line_0` from parser.rs: glob the whole remainder of the line,
re-tokenize it, and dispatch on its first token. -/
def parseLine0 (cs : List Char) : Except ParseError Line0 :=
  match nextToken cs true with
  | (.error .EndOfLine, _) => .ok (.meta (.comment ""))
  | (.error e, _) => .error e
  | (.ok text, _) =>
    match nextToken text.data false with
    | (.error e, _) => .error e
    | (.ok cmd, it1) =>
      match cmd.data with
      | '!' :: keyChars =>
        let key := String.mk keyChars
        match nextToken it1 true with
        | (.ok value, _) => .ok (.header ⟨key, value⟩)
        | (.error e, _) => .error e
      | _ =>
        match cmd with
        | "BFC" => parseBfcStatement it1
        | "Name:" =>
          match nextToken it1 true with
          | (.ok msg, _) => .ok (.name msg)
          | (.error _, _) => .ok (.name "")
        | "Author:" =>
          match nextToken it1 true with
          | (.ok msg, _) => .ok (.author msg)
          | (.error _, _) => .ok (.author "")
        | "FILE" =>
          match nextToken it1 true with
          | (.ok msg, _) => .ok (.file msg)
          | (.error e, _) => .error e
        | "STEP" => .ok (.meta .step)
        | "WRITE" =>
          match nextToken it1 true with
          | (.ok msg, _) => .ok (.meta (.write msg))
          | (.error e, _) => .error e
        | "PRINT" =>
          match nextToken it1 true with
          | (.ok msg, _) => .ok (.meta (.print msg))
          | (.error e, _) => .error e
        | "CLEAR" => .ok (.meta .clear)
        | "PAUSE" => .ok (.meta .pause)
        | "SAVE" => .ok (.meta .save)
        | _ => .ok (.meta (.comment text))

/-- Sequencing of a token read followed by a continuation on the advanced
iterator; the Rust original threads a shared `&mut Chars` and aborts with
`?` on the read's error. -/
def pbind {α β : Type} (r : List Char → Except ParseError α × List Char)
    (cs : List Char) (k : α → List Char → Except ParseError β) : Except ParseError β :=
  match r cs with
  | (.error e, _) => .error e
  | (.ok v, cs') => k v cs'

/-- `parse_line_1` from parser.rs: colour code, the floats
x y z r11 r12 r13 r21 r22 r23 r31 r32 r33 in that source order, the
column-major `Matrix4::new` call followed by `.transpose()`, and the glob
model name. -/
def parseLine1 (materials : MaterialRegistry) (cs : List Char) :
    Except ParseError PartReference :=
  pbind nextTokenU32 cs fun color cs =>
  pbind nextTokenF32 cs fun x cs =>
  pbind nextTokenF32 cs fun y cs =>
  pbind nextTokenF32 cs fun z cs =>
  pbind nextTokenF32 cs fun a cs =>
  pbind nextTokenF32 cs fun b cs =>
  pbind nextTokenF32 cs fun c cs =>
  pbind nextTokenF32 cs fun d cs =>
  pbind nextTokenF32 cs fun e cs =>
  pbind nextTokenF32 cs fun f cs =>
  pbind nextTokenF32 cs fun g cs =>
  pbind nextTokenF32 cs fun h cs =>
  pbind nextTokenF32 cs fun i cs =>
  let matrix := (Matrix4.new a b c x d e f y g h i z 0 0 0 1).transpose
  pbind (fun cs => nextToken cs true) cs fun nm _ =>
  .ok { color := ColorReference.resolve color materials,
        matrix := matrix,
        name := PartAlias.fromString nm }

/-- `parse_line_2` from parser.rs. -/
def parseLine2 (materials : MaterialRegistry) (cs : List Char) :
    Except ParseError Line :=
  pbind nextTokenU32 cs fun color cs =>
  pbind nextTokenF32 cs fun ax cs =>
  pbind nextTokenF32 cs fun ay cs =>
  pbind nextTokenF32 cs fun az cs =>
  pbind nextTokenF32 cs fun bx cs =>
  pbind nextTokenF32 cs fun by_ cs =>
  pbind nextTokenF32 cs fun bz _ =>
  .ok { color := ColorReference.resolve color materials,
        a := Vector4.new ax ay az 1, b := Vector4.new bx by_ bz 1 }

/-- `parse_line_3` from parser.rs. -/
def parseLine3 (materials : MaterialRegistry) (cs : List Char) :
    Except ParseError Triangle :=
  pbind nextTokenU32 cs fun color cs =>
  pbind nextTokenF32 cs fun ax cs =>
  pbind nextTokenF32 cs fun ay cs =>
  pbind nextTokenF32 cs fun az cs =>
  pbind nextTokenF32 cs fun bx cs =>
  pbind nextTokenF32 cs fun by_ cs =>
  pbind nextTokenF32 cs fun bz cs =>
  pbind nextTokenF32 cs fun cx cs =>
  pbind nextTokenF32 cs fun cy cs =>
  pbind nextTokenF32 cs fun cz _ =>
  .ok { color := ColorReference.resolve color materials,
        a := Vector4.new ax ay az 1, b := Vector4.new bx by_ bz 1,
        c := Vector4.new cx cy cz 1 }

/-- `parse_line_4` from parser.rs. -/
def parseLine4 (materials : MaterialRegistry) (cs : List Char) :
    Except ParseError Quad :=
  pbind nextTokenU32 cs fun color cs =>
  pbind nextTokenF32 cs fun ax cs =>
  pbind nextTokenF32 cs fun ay cs =>
  pbind nextTokenF32 cs fun az cs =>
  pbind nextTokenF32 cs fun bx cs =>
  pbind nextTokenF32 cs fun by_ cs =>
  pbind nextTokenF32 cs fun bz cs =>
  pbind nextTokenF32 cs fun cx cs =>
  pbind nextTokenF32 cs fun cy cs =>
  pbind nextTokenF32 cs fun cz cs =>
  pbind nextTokenF32 cs fun dx cs =>
  pbind nextTokenF32 cs fun dy cs =>
  pbind nextTokenF32 cs fun dz _ =>
  .ok { color := ColorReference.resolve color materials,
        a := Vector4.new ax ay az 1, b := Vector4.new bx by_ bz 1,
        c := Vector4.new cx cy cz 1, d := Vector4.new dx dy dz 1 }

/-- `parse_line_5` from parser.rs. -/
def parseLine5 (materials : MaterialRegistry) (cs : List Char) :
    Except ParseError OptionalLine :=
  pbind nextTokenU32 cs fun color cs =>
  pbind nextTokenF32 cs fun ax cs =>
  pbind nextTokenF32 cs fun ay cs =>
  pbind nextTokenF32 cs fun az cs =>
  pbind nextTokenF32 cs fun bx cs =>
  pbind nextTokenF32 cs fun by_ cs =>
  pbind nextTokenF32 cs fun bz cs =>
  pbind nextTokenF32 cs fun cx cs =>
  pbind nextTokenF32 cs fun cy cs =>
  pbind nextTokenF32 cs fun cz cs =>
  pbind nextTokenF32 cs fun dx cs =>
  pbind nextTokenF32 cs fun dy cs =>
  pbind nextTokenF32 cs fun dz _ =>
  .ok { color := ColorReference.resolve color materials,
        a := Vector4.new ax ay az 1, b := Vector4.new bx by_ bz 1,
        c := Vector4.new cx cy cz 1, d := Vector4.new dx dy dz 1 }

/-! ## Document assembler and multi-document driver (`parse_inner`,
`parse_single_document`, `parse_multipart_document`) -/

/-- The mutable accumulators of `parse_inner`. -/
structure PState where
  name : String
  author : String
  description : String
  bfc : BfcCertification
  commands : List Command
  headers : List Header
  deriving DecidableEq, Repr

def initState : PState := ⟨"", "", "", .NotApplicable, [], []⟩

def PState.toDocument (st : PState) : Document :=
  ⟨st.name, st.description, st.author, st.bfc, st.headers, st.commands⟩

/-- The outcome of one iteration of the `'read_loop` in `parse_inner`:
either continue with updated accumulators, or break out of the loop with a
pending sub-model name. -/
inductive Step0 where
  | cont (st : PState)
  | brk (st : PState) (next : String)
  deriving DecidableEq, Repr

/-- The body of the `'read_loop` in `parse_inner` for one input line (every
error return site there wraps the kind with the same 1-based line number,
which `parseInnerLoop` adds). -/
def stepLine (materials : MaterialRegistry) (multipart : Bool) (line : String)
    (st : PState) : Except ParseError Step0 :=
  match nextToken line.data false with
  | (.error .EndOfLine, _) => .ok (.cont st)
  | (.error e, _) => .error e
  | (.ok token, it) =>
    match token with
    | "0" =>
      match parseLine0 it with
      | .error e => .error e
      | .ok val =>
        match val with
        | .bfcCertification b => .ok (.cont { st with bfc := b })
        | .file f =>
          if multipart then
            if st.description = "" then .ok (.cont st)
            else .ok (.brk st f)
          else .error .MultipartDocument
        | .name n => .ok (.cont { st with name := n })
        | .author a => .ok (.cont { st with author := a })
        | .meta m =>
          match m with
          | .comment c =>
            if st.description = "" then .ok (.cont { st with description := c })
            else .ok (.cont { st with commands := st.commands ++ [.meta (.comment c)] })
          | _ => .ok (.cont { st with commands := st.commands ++ [.meta m] })
        | .header h => .ok (.cont { st with headers := st.headers ++ [h] })
    | "1" =>
      match parseLine1 materials it with
      | .ok v => .ok (.cont { st with commands := st.commands ++ [.partReference v] })
      | .error e => .error e
    | "2" =>
      match parseLine2 materials it with
      | .ok v => .ok (.cont { st with commands := st.commands ++ [.line v] })
      | .error e => .error e
    | "3" =>
      match parseLine3 materials it with
      | .ok v => .ok (.cont { st with commands := st.commands ++ [.triangle v] })
      | .error e => .error e
    | "4" =>
      match parseLine4 materials it with
      | .ok v => .ok (.cont { st with commands := st.commands ++ [.quad v] })
      | .error e => .error e
    | "5" =>
      match parseLine5 materials it with
      | .ok v => .ok (.cont { st with commands := st.commands ++ [.optionalLine v] })
      | .error e => .error e
    | _ => .error (.UnexpectedCommand token)

/-- The `'read_loop` of `parse_inner` over the enumerated line source:  `i`
lines have already been consumed (so the current line is number `i + 1`).
Returns the assembled document, the pending sub-model name (if the loop
broke at a `FILE` boundary), and the unconsumed lines with their running
index — Rust keeps these in the shared enumerated iterator that
`parse_multipart_document` continues to drain. -/
def parseInnerLoop (materials : MaterialRegistry) (multipart : Bool) :
    List String → Nat → PState →
    Except DocumentParseError (Document × Option String × List String × Nat)
  | [], i, st => .ok (st.toDocument, none, [], i)
  | l :: ls, i, st =>
    match stepLine materials multipart l st with
    | .error e => .error ⟨i + 1, e⟩
    | .ok (.cont st') => parseInnerLoop materials multipart ls (i + 1) st'
    | .ok (.brk st' nm) => .ok (st'.toDocument, some nm, ls, i + 1)

/-- `parse_single_document` from parser.rs. -/
def parseSingleDocument (materials : MaterialRegistry) (ls : List String) :
    Except DocumentParseError Document :=
  match parseInnerLoop materials false ls 0 initState with
  | .error e => .error e
  | .ok (document, _, _, _) => .ok document

theorem parseInnerLoop_rest_lt (materials : MaterialRegistry) (multipart : Bool) :
    ∀ (ls : List String) (i : Nat) (st : PState) (d : Document) (nm : String)
      (rest : List String) (i' : Nat),
      parseInnerLoop materials multipart ls i st = .ok (d, some nm, rest, i') →
      rest.length < ls.length := by
  intro ls
  induction ls with
  | nil =>
    intro i st d nm rest i' h
    simp [parseInnerLoop] at h
  | cons l ls ih =>
    intro i st d nm rest i' h
    simp only [parseInnerLoop] at h
    cases hstep : stepLine materials multipart l st with
    | error e => rw [hstep] at h; simp at h
    | ok s =>
      rw [hstep] at h
      cases s with
      | cont st' =>
        simp only at h
        have := ih (i + 1) st' d nm rest i' h
        simpa [Nat.lt_succ_iff] using Nat.le_of_lt this
      | brk st' nm' =>
        simp only [Except.ok.injEq, Prod.mk.injEq] at h
        obtain ⟨-, -, hrest, -⟩ := h
        simp [← hrest]

/-- The `while next.is_some()` loop of `parse_multipart_document`: parse the
next document, store it in the subparts map under the pending name, and
repeat while a new pending name is produced.  The recursion is driven by a
structural fuel so that the definition computes by kernel reduction; by
`parseInnerLoop_rest_lt` every iteration with a pending name consumes at
least the boundary `FILE` line, so the fuel `ls.length + 1` supplied by
`parseMpLoop` can never run out and the fuel-0 value is unreachable. -/
def parseMpLoopGo (materials : MaterialRegistry) :
    Nat → String → List String → Nat → List (PartAlias × Document) →
    Except DocumentParseError (List (PartAlias × Document))
  | 0, _, _, i, _ => .error ⟨i, .EndOfLine⟩
  | fuel + 1, nm, ls, i, acc =>
    match parseInnerLoop materials true ls i initState with
    | .error e => .error e
    | .ok (part, none, _, _) => .ok (insertSubpart acc (PartAlias.fromString nm) part)
    | .ok (part, some nm', rest, i') =>
      parseMpLoopGo materials fuel nm' rest i' (insertSubpart acc (PartAlias.fromString nm) part)

def parseMpLoop (materials : MaterialRegistry) (nm : String) (ls : List String)
    (i : Nat) (acc : List (PartAlias × Document)) :
    Except DocumentParseError (List (PartAlias × Document)) :=
  parseMpLoopGo materials (ls.length + 1) nm ls i acc

/-- `parse_multipart_document` from parser.rs. -/
def parseMultipartDocument (materials : MaterialRegistry) (ls : List String) :
    Except DocumentParseError MultipartDocument :=
  match parseInnerLoop materials true ls 0 initState with
  | .error e => .error e
  | .ok (document, none, _, _) => .ok ⟨document, []⟩
  | .ok (document, some nm, rest, i) =>
    match parseMpLoop materials nm rest i [] with
    | .error e => .error e
    | .ok subparts => .ok ⟨document, subparts⟩

/-! ## Consumption bounds for the token readers (used for the termination
of the palette parser's attribute loops) -/

theorem nextTokenGo_rest_le (g : Bool) :
    ∀ (cs buf : List Char), ((nextTokenGo g buf cs).2).length ≤ cs.length := by
  intro cs
  induction cs with
  | nil => intro buf; simp [nextTokenGo]
  | cons c rest ih =>
    intro buf
    simp only [nextTokenGo]
    split
    · exact Nat.le_succ_of_le (ih _)
    · split
      · split
        · exact Nat.le_succ _
        · exact Nat.le_succ_of_le (ih _)
      · exact Nat.le_succ_of_le (ih _)

theorem nextTokenGo_eq_or_lt (g : Bool) :
    ∀ (cs buf : List Char), (nextTokenGo g buf cs).1 = buf ∨
      ((nextTokenGo g buf cs).2).length < cs.length := by
  intro cs
  induction cs with
  | nil => intro buf; left; simp [nextTokenGo]
  | cons c rest ih =>
    intro buf
    simp only [nextTokenGo]
    split
    · right; exact Nat.lt_succ_of_le (nextTokenGo_rest_le g rest _)
    · split
      · split
        · left; rfl
        · right; exact Nat.lt_succ_of_le (nextTokenGo_rest_le g rest _)
      · rcases ih buf with h | h
        · left; exact h
        · right; exact Nat.lt_succ_of_le (Nat.le_of_lt h)

theorem nextToken_snd_le (cs : List Char) (g : Bool) :
    ((nextToken cs g).2).length ≤ cs.length := by
  have hle := nextTokenGo_rest_le g cs []
  unfold nextToken
  rcases hgo : nextTokenGo g [] cs with ⟨buf, rest⟩
  rw [hgo] at hle
  by_cases hb : buf.isEmpty <;> simp [hb] <;> simpa using hle

theorem nextToken_ok_lt {cs : List Char} {g : Bool} {t : String} {rest : List Char}
    (h : nextToken cs g = (.ok t, rest)) : rest.length < cs.length := by
  have hor := nextTokenGo_eq_or_lt g cs []
  unfold nextToken at h
  rcases hgo : nextTokenGo g [] cs with ⟨buf, rest'⟩
  rw [hgo] at h hor
  by_cases hb : buf.isEmpty
  · simp [hb] at h
  · simp [hb] at h
    rcases hor with hor | hor
    · exact absurd (List.isEmpty_iff.mpr hor) hb
    · simpa [← h.2] using hor

theorem nextTokenU32_snd_le (cs : List Char) :
    ((nextTokenU32 cs).2).length ≤ cs.length := by
  unfold nextTokenU32
  rcases hnt : nextToken cs false with ⟨res, rest⟩
  have := nextToken_snd_le cs false
  rw [hnt] at this
  cases res with
  | error e => simpa using this
  | ok token =>
    simp only
    split <;> [skip; skip] <;> split <;> simpa using this

theorem nextTokenF32_snd_le (cs : List Char) :
    ((nextTokenF32 cs).2).length ≤ cs.length := by
  unfold nextTokenF32
  rcases hnt : nextToken cs false with ⟨res, rest⟩
  have := nextToken_snd_le cs false
  rw [hnt] at this
  cases res with
  | error e => simpa using this
  | ok token => simp only; split <;> simpa using this

theorem nextTokenRgb_snd_le (cs : List Char) :
    ((nextTokenRgb cs).2).length ≤ cs.length := by
  unfold nextTokenRgb
  cases cs with
  | nil => simp
  | cons c rest =>
    simp only
    have hd : ∀ n, ((rest.drop 2).drop 2 |>.drop n).length ≤ rest.length := by
      intro n
      simp only [List.length_drop]
      omega
    split
    · exact Nat.le_succ _
    · split
      · simpa using Nat.le_succ_of_le (hd 2)
      · split
        · simpa using Nat.le_succ_of_le (hd 2)
        · split <;> simpa using Nat.le_succ_of_le (hd 2)

/-! ## Palette parser (`parse_customized_material`,
`parse_color_definition`) -/

/-- The mutable accumulators of the GLITTER branch of
`parse_customized_material` (initial values `255, 0, 0.0, 0.0, 0, 0.0,
0.0`). -/
structure GlitterAcc where
  alpha : Nat
  luminance : Nat
  fraction : ℚ
  vfraction : ℚ
  size : Nat
  minsize : ℚ
  maxsize : ℚ
  deriving DecidableEq, Repr

/-- The mutable accumulators of the SPECKLE branch. -/
structure SpeckleAcc where
  alpha : Nat
  luminance : Nat
  fraction : ℚ
  size : Nat
  minsize : ℚ
  maxsize : ℚ
  deriving DecidableEq, Repr

/-- The trailing-attribute loop of the GLITTER branch of
`parse_customized_material`: `ALPHA` and `LUMINANCE` store the parsed `u32`
truncated to its low 8 bits (`as u8`).  Structural fuel: each iteration
consumes at least one character (`nextToken_ok_lt`), so the fuel
`cs.length + 1` supplied by `glitterLoop` can never run out. -/
def glitterLoopGo : Nat → List Char → GlitterAcc →
    Except ColorDefinitionParseError GlitterAcc × List Char
  | 0, cs, _ => (.error (.parseError .EndOfLine), cs)
  | fuel + 1, cs, acc =>
    match nextToken cs false with
    | (.error .EndOfLine, rest) => (.ok acc, rest)
    | (.error e, rest) => (.error (.parseError e), rest)
    | (.ok token, cs1) =>
      match token with
      | "ALPHA" =>
        match nextTokenU32 cs1 with
        | (.error e, rest) => (.error (.parseError e), rest)
        | (.ok v, cs2) => glitterLoopGo fuel cs2 { acc with alpha := v % 256 }
      | "LUMINANCE" =>
        match nextTokenU32 cs1 with
        | (.error e, rest) => (.error (.parseError e), rest)
        | (.ok v, cs2) => glitterLoopGo fuel cs2 { acc with luminance := v % 256 }
      | "FRACTION" =>
        match nextTokenF32 cs1 with
        | (.error e, rest) => (.error (.parseError e), rest)
        | (.ok v, cs2) => glitterLoopGo fuel cs2 { acc with fraction := v }
      | "VFRACTION" =>
        match nextTokenF32 cs1 with
        | (.error e, rest) => (.error (.parseError e), rest)
        | (.ok v, cs2) => glitterLoopGo fuel cs2 { acc with vfraction := v }
      | "SIZE" =>
        match nextTokenU32 cs1 with
        | (.error e, rest) => (.error (.parseError e), rest)
        | (.ok v, cs2) => glitterLoopGo fuel cs2 { acc with size := v }
      | "MINSIZE" =>
        match nextTokenF32 cs1 with
        | (.error e, rest) => (.error (.parseError e), rest)
        | (.ok v, cs2) => glitterLoopGo fuel cs2 { acc with minsize := v }
      | "MAXSIZE" =>
        match nextTokenF32 cs1 with
        | (.error e, rest) => (.error (.parseError e), rest)
        | (.ok v, cs2) => glitterLoopGo fuel cs2 { acc with maxsize := v }
      | _ => (.error (.parseError (.InvalidToken token)), cs1)

def glitterLoop (cs : List Char) (acc : GlitterAcc) :
    Except ColorDefinitionParseError GlitterAcc × List Char :=
  glitterLoopGo (cs.length + 1) cs acc

/-- The trailing-attribute loop of the SPECKLE branch (no `VFRACTION`);
fuelled like the GLITTER loop. -/
def speckleLoopGo : Nat → List Char → SpeckleAcc →
    Except ColorDefinitionParseError SpeckleAcc × List Char
  | 0, cs, _ => (.error (.parseError .EndOfLine), cs)
  | fuel + 1, cs, acc =>
    match nextToken cs false with
    | (.error .EndOfLine, rest) => (.ok acc, rest)
    | (.error e, rest) => (.error (.parseError e), rest)
    | (.ok token, cs1) =>
      match token with
      | "ALPHA" =>
        match nextTokenU32 cs1 with
        | (.error e, rest) => (.error (.parseError e), rest)
        | (.ok v, cs2) => speckleLoopGo fuel cs2 { acc with alpha := v % 256 }
      | "LUMINANCE" =>
        match nextTokenU32 cs1 with
        | (.error e, rest) => (.error (.parseError e), rest)
        | (.ok v, cs2) => speckleLoopGo fuel cs2 { acc with luminance := v % 256 }
      | "FRACTION" =>
        match nextTokenF32 cs1 with
        | (.error e, rest) => (.error (.parseError e), rest)
        | (.ok v, cs2) => speckleLoopGo fuel cs2 { acc with fraction := v }
      | "SIZE" =>
        match nextTokenU32 cs1 with
        | (.error e, rest) => (.error (.parseError e), rest)
        | (.ok v, cs2) => speckleLoopGo fuel cs2 { acc with size := v }
      | "MINSIZE" =>
        match nextTokenF32 cs1 with
        | (.error e, rest) => (.error (.parseError e), rest)
        | (.ok v, cs2) => speckleLoopGo fuel cs2 { acc with minsize := v }
      | "MAXSIZE" =>
        match nextTokenF32 cs1 with
        | (.error e, rest) => (.error (.parseError e), rest)
        | (.ok v, cs2) => speckleLoopGo fuel cs2 { acc with maxsize := v }
      | _ => (.error (.parseError (.InvalidToken token)), cs1)

def speckleLoop (cs : List Char) (acc : SpeckleAcc) :
    Except ColorDefinitionParseError SpeckleAcc × List Char :=
  speckleLoopGo (cs.length + 1) cs acc

/-- `parse_customized_material` from parser.rs: `GLITTER` or `SPECKLE`,
then the literal `VALUE` and an RGB triplet, then the attribute loop; an
unknown leading keyword is an unknown-material error. -/
def parseCustomizedMaterial (cs : List Char) :
    Except ColorDefinitionParseError CustomizedMaterial × List Char :=
  match nextToken cs false with
  | (.error e, rest) => (.error (.parseError e), rest)
  | (.ok kind, cs1) =>
    match kind with
    | "GLITTER" =>
      match nextToken cs1 false with
      | (.error e, rest) => (.error (.parseError e), rest)
      | (.ok t, cs2) =>
        if t = "VALUE" then
          match nextTokenRgb cs2 with
          | (.error e, rest) => (.error (.parseError e), rest)
          | (.ok (vr, vg, vb), cs3) =>
            match glitterLoop cs3 ⟨255, 0, 0, 0, 0, 0, 0⟩ with
            | (.error e, rest) => (.error e, rest)
            | (.ok acc, rest) =>
              (.ok (.Glitter
                { value := Rgba.new vr vg vb acc.alpha,
                  luminance := acc.luminance, fraction := acc.fraction,
                  vfraction := acc.vfraction, size := acc.size,
                  minsize := acc.minsize, maxsize := acc.maxsize }), rest)
        else (.error (.parseError (.InvalidToken t)), cs2)
    | "SPECKLE" =>
      match nextToken cs1 false with
      | (.error e, rest) => (.error (.parseError e), rest)
      | (.ok t, cs2) =>
        if t = "VALUE" then
          match nextTokenRgb cs2 with
          | (.error e, rest) => (.error (.parseError e), rest)
          | (.ok (vr, vg, vb), cs3) =>
            match speckleLoop cs3 ⟨255, 0, 0, 0, 0, 0⟩ with
            | (.error e, rest) => (.error e, rest)
            | (.ok acc, rest) =>
              (.ok (.Speckle
                { value := Rgba.new vr vg vb acc.alpha,
                  luminance := acc.luminance, fraction := acc.fraction,
                  size := acc.size, minsize := acc.minsize,
                  maxsize := acc.maxsize }), rest)
        else (.error (.parseError (.InvalidToken t)), cs2)
    | _ => (.error (.unknownMaterial kind), cs1)

/-- The trailing-attribute loop of `parse_color_definition` for one
`COLOUR` header: `ALPHA` and `LUMINANCE` store the parsed `u32` truncated
to its low 8 bits (`as u8`); each finish flag overwrites the current
finish; `MATERIAL` hands the shared iterator to
`parse_customized_material`.  Structural fuel: each iteration consumes at
least one character of the iterator, so the fuel `cs.length + 1` supplied
by `colourLoop` can never run out. -/
def colourLoopGo : Nat → List Char → Nat → Nat → Finish →
    Except ColorDefinitionParseError (Nat × Nat × Finish)
  | 0, _, _, _, _ => .error (.parseError .EndOfLine)
  | fuel + 1, cs, alpha, luminance, finish =>
    match nextToken cs false with
    | (.error .EndOfLine, _) => .ok (alpha, luminance, finish)
    | (.error e, _) => .error (.parseError e)
    | (.ok token, cs1) =>
      match token with
      | "ALPHA" =>
        match nextTokenU32 cs1 with
        | (.error e, _) => .error (.parseError e)
        | (.ok v, cs2) => colourLoopGo fuel cs2 (v % 256) luminance finish
      | "LUMINANCE" =>
        match nextTokenU32 cs1 with
        | (.error e, _) => .error (.parseError e)
        | (.ok v, cs2) => colourLoopGo fuel cs2 alpha (v % 256) finish
      | "CHROME" => colourLoopGo fuel cs1 alpha luminance .Chrome
      | "PEARLESCENT" => colourLoopGo fuel cs1 alpha luminance .Pearlescent
      | "METAL" => colourLoopGo fuel cs1 alpha luminance .Metal
      | "RUBBER" => colourLoopGo fuel cs1 alpha luminance .Rubber
      | "MATTE_METALLIC" => colourLoopGo fuel cs1 alpha luminance .MatteMetallic
      | "MATERIAL" =>
        match parseCustomizedMaterial cs1 with
        | (.error e, _) => .error e
        | (.ok m, cs2) => colourLoopGo fuel cs2 alpha luminance (.Custom m)
      | _ => .error (.parseError (.InvalidToken token))

def colourLoop (cs : List Char) (alpha luminance : Nat) (finish : Finish) :
    Except ColorDefinitionParseError (Nat × Nat × Finish) :=
  colourLoopGo (cs.length + 1) cs alpha luminance finish

/-- The body of the per-`COLOUR`-header `for` loop of
`parse_color_definition` (parser.rs lines 656-743): name, `CODE`, code,
`VALUE`, base RGB, `EDGE`, edge RGB, then the attribute loop; the material
is assembled with the base colour's alpha from the loop and the edge
colour's alpha fixed at 255. -/
def colourHeader (value : String) : Except ColorDefinitionParseError Material :=
  match nextToken value.data false with
  | (.error e, _) => .error (.parseError e)
  | (.ok name, it1) =>
    match nextToken it1 false with
    | (.error e, _) => .error (.parseError e)
    | (.ok t1, it2) =>
      if t1 = "CODE" then
        match nextTokenU32 it2 with
        | (.error e, _) => .error (.parseError e)
        | (.ok code, it3) =>
          match nextToken it3 false with
          | (.error e, _) => .error (.parseError e)
          | (.ok t2, it4) =>
            if t2 = "VALUE" then
              match nextTokenRgb it4 with
              | (.error e, _) => .error (.parseError e)
              | (.ok (cr, cg, cb), it5) =>
                match nextToken it5 false with
                | (.error e, _) => .error (.parseError e)
                | (.ok t3, it6) =>
                  if t3 = "EDGE" then
                    match nextTokenRgb it6 with
                    | (.error e, _) => .error (.parseError e)
                    | (.ok (er, eg, eb), it7) =>
                      match colourLoop it7 255 0 .Plastic with
                      | .error e => .error e
                      | .ok (alpha, luminance, finish) =>
                        .ok { code := code, name := name,
                              color := Rgba.new cr cg cb alpha,
                              edge := Rgba.new er eg eb 255,
                              luminance := luminance, finish := finish }
                  else .error (.parseError (.InvalidToken t3))
            else .error (.parseError (.InvalidToken t2))
      else .error (.parseError (.InvalidToken t1))

/-- The `for` loop of `parse_color_definition` over the document's
`COLOUR` headers, inserting each parsed material into the registry keyed by
its code. -/
def colourFold : List Header → MaterialRegistry → Except ColorDefinitionParseError MaterialRegistry
  | [], materials => .ok materials
  | h :: rest, materials =>
    match colourHeader h.value with
    | .error e => .error e
    | .ok m => colourFold rest (materials.insert m.code m)

/-- `parse_color_definition` from parser.rs: a single-document parse with
an empty registry, then the `COLOUR` header grammar over the document's
headers, building a fresh registry. -/
def parseColorDefinition (ls : List String) :
    Except ColorDefinitionParseError MaterialRegistry :=
  match parseSingleDocument [] ls with
  | .error e => .error (.documentParseError e)
  | .ok document =>
    colourFold (document.headers.filter (fun h => h.key == "COLOUR")) []

/-! ## Further lemmas about the assembler loop -/

/-- Folding `stepLine` over the leading lines of the source without
reaching an error or a sub-model boundary: returns the accumulator state
after those lines (`some`), or `none` if the loop broke inside them. -/
def runKept (materials : MaterialRegistry) (multipart : Bool) :
    List String → Nat → PState → Except DocumentParseError (Option PState)
  | [], _, st => .ok (some st)
  | l :: ls, i, st =>
    match stepLine materials multipart l st with
    | .error e => .error ⟨i + 1, e⟩
    | .ok (.cont st') => runKept materials multipart ls (i + 1) st'
    | .ok (.brk _ _) => .ok none

theorem parseInnerLoop_append (materials : MaterialRegistry) (multipart : Bool) :
    ∀ (pre ls : List String) (i : Nat) (st st' : PState),
      runKept materials multipart pre i st = .ok (some st') →
      parseInnerLoop materials multipart (pre ++ ls) i st =
        parseInnerLoop materials multipart ls (i + pre.length) st' := by
  intro pre
  induction pre with
  | nil =>
    intro ls i st st' h
    simp [runKept] at h
    simp [h]
  | cons l pre ih =>
    intro ls i st st' h
    cases hstep : stepLine materials multipart l st with
    | error e => simp [runKept, hstep] at h
    | ok s =>
      cases s with
      | cont st'' =>
        simp only [runKept, hstep] at h
        have harith : i + (l :: pre).length = i + 1 + pre.length := by
          simp [List.length_cons]
          omega
        rw [harith]
        simp only [List.cons_append, parseInnerLoop, hstep]
        exact ih ls (i + 1) st'' st' h
      | brk st'' nm => simp [runKept, hstep] at h

theorem parseInnerLoop_error_ge (materials : MaterialRegistry) (multipart : Bool) :
    ∀ (ls : List String) (i : Nat) (st : PState) (e : DocumentParseError),
      parseInnerLoop materials multipart ls i st = .error e → i + 1 ≤ e.line := by
  intro ls
  induction ls with
  | nil => intro i st e h; simp [parseInnerLoop] at h
  | cons l ls ih =>
    intro i st e h
    simp only [parseInnerLoop] at h
    cases hstep : stepLine materials multipart l st with
    | error pe =>
      rw [hstep] at h
      simp only [Except.error.injEq] at h
      simp [← h]
    | ok s =>
      rw [hstep] at h
      cases s with
      | cont st' =>
        have := ih (i + 1) st' e h
        omega
      | brk st' nm => simp at h

theorem parseMpLoopGo_error_ge (materials : MaterialRegistry) :
    ∀ (fuel : Nat) (nm : String) (ls : List String) (i : Nat)
      (acc : List (PartAlias × Document)) (e : DocumentParseError),
      ls.length < fuel → parseMpLoopGo materials fuel nm ls i acc = .error e →
      1 ≤ e.line := by
  intro fuel
  induction fuel with
  | zero => intro nm ls i acc e hlen h; omega
  | succ fuel ih =>
    intro nm ls i acc e hlen h
    simp only [parseMpLoopGo] at h
    cases hin : parseInnerLoop materials true ls i initState with
    | error e' =>
      rw [hin] at h
      simp only [Except.error.injEq] at h
      have := parseInnerLoop_error_ge materials true ls i initState e' hin
      rw [← h]
      omega
    | ok res =>
      rw [hin] at h
      obtain ⟨part, next, rest, i'⟩ := res
      cases next with
      | none => simp at h
      | some nm' =>
        have hlt := parseInnerLoop_rest_lt materials true ls i initState part nm' rest i' hin
        exact ih nm' rest i' _ e (by omega) h

/-! ## Claim theorems -/

/-- Claim C2 (code bug): the claim — and the parser's own unit test for
`"!HELP"` — require a type-0 header line with nothing after the key to
parse to a header with an empty value, but `parse_line_0` propagates the
`EndOfLine` of the missing value token, so `0 !HELP` fails the whole
document parse; when a value is present the key/value split does behave as
claimed (third conjunct). -/
theorem C2_header_missing_value_fails :
    parseLine0 "!HELP".data = .error .EndOfLine
    ∧ parseSingleDocument [] ["0 !HELP"] = .error ⟨1, .EndOfLine⟩
    ∧ parseLine0 "!CATEGORY Animal".data = .ok (.header ⟨"CATEGORY", "Animal"⟩) :=
  ⟨by rfl, by rfl, by rfl⟩

/-- Claim C4 (code bug): the claim — and the parser's own unit test —
require `0 BFC CW CLIP` (and `0 BFC CCW CLIP`) to parse to
`Clip(Some(winding))` like the `CLIP CW`/`CLIP CCW` order, but
`parse_bfc_statement` has no arm for the reversed word order and returns
an invalid-BFC-statement error carrying the phrase. -/
theorem C4_bfc_reversed_word_order_fails :
    parseLine0 "BFC CW CLIP".data = .error (.InvalidBfcStatement "CW CLIP")
    ∧ parseLine0 "BFC CCW CLIP".data = .error (.InvalidBfcStatement "CCW CLIP")
    ∧ parseLine0 "BFC CLIP CW".data = .ok (.meta (.bfc (.clip (some .Cw))))
    ∧ parseLine0 "BFC CLIP CCW".data = .ok (.meta (.bfc (.clip (some .Ccw)))) :=
  ⟨by rfl, by rfl, by rfl, by rfl⟩

/-- Claim C8 counterexample: truncated RGB input after `#` does not yield
the end-of-line condition as claimed; `#FF00` fails with a `u8` type
mismatch on the empty third digit group. -/
theorem C8_counterexample :
    nextTokenRgb "#FF00".data = (.error (.TypeMismatch "u8" ""), [])
    ∧ ParseError.TypeMismatch "u8" "" ≠ ParseError.EndOfLine :=
  ⟨by rfl, by decide⟩

theorem digitValue_lt_radix {radix : Nat} {c : Char} {v : Nat}
    (h : digitValue radix c = some v) : v < radix := by
  simp only [digitValue] at h
  split at h
  · rename_i d heq
    split at h
    · rename_i hd
      cases h
      exact hd
    · simp at h
  · simp at h

theorem digitValue_ne_plus {radix : Nat} {c : Char} {v : Nat}
    (h : digitValue radix c = some v) : c ≠ '+' := by
  intro hc
  subst hc
  rw [show digitValue radix '+' = none from rfl] at h
  cases h

theorem fromStrRadix_two_hex_digits {a b : Char} {va vb : Nat}
    (ha : digitValue 16 a = some va) (hb : digitValue 16 b = some vb) :
    fromStrRadix 16 u8cap [a, b] = some (va * 16 + vb) := by
  have hva := digitValue_lt_radix ha
  have hvb := digitValue_lt_radix hb
  have hne := digitValue_ne_plus ha
  unfold fromStrRadix
  split
  · rename_i heq
    exact absurd heq (by simp)
  · rename_i rest heq
    exfalso
    injection heq with hh1 hh2
    exact hne hh1
  · have hhd : (([a, b] : List Char).head? == some '+') = false := by
      simp [hne]
    rw [hhd]
    simp only [Bool.false_eq_true, if_false, parseDigits, ha, hb,
      Nat.zero_mul, Nat.zero_add]
    rw [if_pos (show va ≤ u8cap by unfold u8cap; omega)]
    rw [if_pos (show va * 16 + vb ≤ u8cap by unfold u8cap; omega)]

/-- Claim C8 as amended: the RGB reader requires the next raw character to
be `#` (a different character fails with `InvalidToken`, never a silent
default) and then takes three groups of up to two characters, each parsed
as hexadecimal; an empty input yields the benign end-of-line condition,
six hex digits yield the three bytes with the following characters left in
the iterator, but a truncated input (four or fewer characters after `#`)
fails with a `u8` type mismatch on the first bad group — not with
end-of-line as the claim stated. -/
theorem C8_rgb_triplet_reader :
    nextTokenRgb [] = (.error .EndOfLine, [])
    ∧ (∀ (c : Char) (rest : List Char), c ≠ '#' →
        nextTokenRgb (c :: rest) = (.error (.InvalidToken (String.mk [c])), rest))
    ∧ (∀ ds : List Char, ds.length ≤ 4 →
        ∃ g : String, (nextTokenRgb ('#' :: ds)).1 = .error (.TypeMismatch "u8" g))
    ∧ (∀ (d1 d2 d3 d4 d5 d6 : Char) (rest : List Char) (v1 v2 v3 v4 v5 v6 : Nat),
        digitValue 16 d1 = some v1 → digitValue 16 d2 = some v2 →
        digitValue 16 d3 = some v3 → digitValue 16 d4 = some v4 →
        digitValue 16 d5 = some v5 → digitValue 16 d6 = some v6 →
        nextTokenRgb ('#' :: d1 :: d2 :: d3 :: d4 :: d5 :: d6 :: rest) =
          (.ok (v1 * 16 + v2, v3 * 16 + v4, v5 * 16 + v6), rest)) := by
  refine ⟨by rfl, ?_, ?_, ?_⟩
  · intro c rest h
    simp [nextTokenRgb, h]
  · intro ds hlen
    have hd4 : ds.drop 4 = [] := List.drop_eq_nil_of_le (by omega)
    have hnil : (ds.drop 4).take 2 = [] := by simp [hd4]
    have hz : fromStrRadix 16 u8cap ([] : List Char) = none := rfl
    rcases h1 : fromStrRadix 16 u8cap (ds.take 2) with _ | r
    · exact ⟨String.mk (ds.take 2), by simp [nextTokenRgb, h1]⟩
    · rcases h2 : fromStrRadix 16 u8cap ((ds.drop 2).take 2) with _ | g
      · exact ⟨String.mk ((ds.drop 2).take 2), by simp [nextTokenRgb, h1, h2]⟩
      · exact ⟨String.mk [], by simp [nextTokenRgb, h1, h2, hnil, hz]⟩
  · intro d1 d2 d3 d4 d5 d6 rest v1 v2 v3 v4 v5 v6 h1 h2 h3 h4 h5 h6
    have e1 := fromStrRadix_two_hex_digits h1 h2
    have e2 := fromStrRadix_two_hex_digits h3 h4
    have e3 := fromStrRadix_two_hex_digits h5 h6
    simp [nextTokenRgb, e1, e2, e3]

/-- Witness for C8: `#` followed by `FF0000` and a trailing blank parses to
(255, 0, 0); a bare `F` fails with `InvalidToken`. -/
theorem C8_rgb_triplet_reader_witness :
    nextTokenRgb ('#' :: 'F' :: 'F' :: '0' :: '0' :: '0' :: '0' :: [' ']) =
      (.ok (15 * 16 + 15, 0 * 16 + 0, 0 * 16 + 0), [' '])
    ∧ nextTokenRgb ('F' :: "F0000".data) =
      (.error (.InvalidToken (String.mk ['F'])), "F0000".data) := by
  have h := C8_rgb_triplet_reader
  exact ⟨h.2.2.2 'F' 'F' '0' '0' '0' '0' [' '] 15 15 0 0 0 0
           (by decide) (by decide) (by decide) (by decide) (by decide) (by decide),
         h.2.1 'F' "F0000".data (by decide)⟩

/-- Claim C9: for every palette header line
`0 !COLOUR <name> CODE <c> VALUE #RRGGBB EDGE #RRGGBB` with no trailing
attributes — any name, any code and any two RGB triplets, given as the
successive token reads of the header value — the material parsed from it
carries the base colour with alpha defaulting to 255, the edge colour with
alpha fixed at 255 and the plain (`Plastic`) finish; the per-header loop of
`parse_color_definition` inserts exactly that material into the registry
keyed by the code c, the registry's lookup at a code always returns the
most recently inserted material for it (so a later same-code insertion
overwrites the earlier entry), and the two closing conjuncts run the whole
pipeline on concrete single- and duplicate-code inputs. -/
theorem C9_colour_header_registry_entry
    (value : String) (nm : String) (code cr cg cb er eg eb : Nat)
    (it1 it2 it3 it4 it5 it6 it7 rest : List Char)
    (h1 : nextToken value.data false = (.ok nm, it1))
    (h2 : nextToken it1 false = (.ok "CODE", it2))
    (h3 : nextTokenU32 it2 = (.ok code, it3))
    (h4 : nextToken it3 false = (.ok "VALUE", it4))
    (h5 : nextTokenRgb it4 = (.ok (cr, cg, cb), it5))
    (h6 : nextToken it5 false = (.ok "EDGE", it6))
    (h7 : nextTokenRgb it6 = (.ok (er, eg, eb), it7))
    (h8 : nextToken it7 false = (.error .EndOfLine, rest)) :
    colourHeader value =
      .ok { code := code, name := nm,
            color := Rgba.new cr cg cb 255, edge := Rgba.new er eg eb 255,
            luminance := 0, finish := .Plastic }
    ∧ (∀ (hs : List Header) (materials : MaterialRegistry) (h : Header),
        h.value = value →
        colourFold (h :: hs) materials =
          colourFold hs (materials.insert code
            { code := code, name := nm,
              color := Rgba.new cr cg cb 255, edge := Rgba.new er eg eb 255,
              luminance := 0, finish := .Plastic }))
    ∧ (∀ (reg : MaterialRegistry) (c : Nat) (m : Material),
        (reg.insert c m).lookup c = some m)
    ∧ parseColorDefinition ["0 !COLOUR Red CODE 4 VALUE #FF0000 EDGE #7F0000"] =
      .ok [(4, { code := 4, name := "Red",
                 color := Rgba.new 255 0 0 255,
                 edge := Rgba.new 127 0 0 255,
                 luminance := 0, finish := .Plastic })]
    ∧ parseColorDefinition
        ["0 !COLOUR Red CODE 4 VALUE #FF0000 EDGE #7F0000",
         "0 !COLOUR Blue CODE 4 VALUE #0000FF EDGE #00007F"] =
      .ok [(4, { code := 4, name := "Blue",
                 color := Rgba.new 0 0 255 255,
                 edge := Rgba.new 0 0 127 255,
                 luminance := 0, finish := .Plastic })] := by
  have hm : colourHeader value =
      .ok { code := code, name := nm,
            color := Rgba.new cr cg cb 255, edge := Rgba.new er eg eb 255,
            luminance := 0, finish := .Plastic } := by
    simp [colourHeader, h1, h2, h3, h4, h5, h6, h7, colourLoop, colourLoopGo, h8]
  refine ⟨hm, ?_, ?_, by decide, by decide⟩
  · intro hs materials h hval
    simp only [colourFold, hval, hm]
  · intro reg c m
    simp [MaterialRegistry.insert, MaterialRegistry.lookup, List.find?]

/-- Witness for C9 at the header value
`Red CODE 4 VALUE #FF0000 EDGE #7F0000`. -/
theorem C9_colour_header_registry_entry_witness :
    colourHeader "Red CODE 4 VALUE #FF0000 EDGE #7F0000" =
      .ok { code := 4, name := "Red",
            color := Rgba.new 255 0 0 255, edge := Rgba.new 127 0 0 255,
            luminance := 0, finish := .Plastic }
    ∧ MaterialRegistry.lookup
        (MaterialRegistry.insert []
          4
          { code := 4, name := "Red",
            color := Rgba.new 255 0 0 255, edge := Rgba.new 127 0 0 255,
            luminance := 0, finish := .Plastic })
        4 =
      some { code := 4, name := "Red",
             color := Rgba.new 255 0 0 255, edge := Rgba.new 127 0 0 255,
             luminance := 0, finish := .Plastic } := by
  have h := C9_colour_header_registry_entry
    "Red CODE 4 VALUE #FF0000 EDGE #7F0000" "Red" 4 255 0 0 127 0 0
    "CODE 4 VALUE #FF0000 EDGE #7F0000".data
    "4 VALUE #FF0000 EDGE #7F0000".data
    "VALUE #FF0000 EDGE #7F0000".data
    "#FF0000 EDGE #7F0000".data
    " EDGE #7F0000".data
    "#7F0000".data
    [] []
    (by decide) (by decide) (by decide) (by decide) (by decide) (by decide)
    (by decide) (by decide)
  exact ⟨h.1, h.2.2.1 [] 4 _⟩

/-- Claim C7 counterexample: an error produced by the palette parser's own
`COLOUR`-header grammar is surfaced to the caller as a bare error kind
carrying no originating line number, refuting the claim that every error of
the three entry points is a (line number, kind) pair. -/
theorem C7_counterexample :
    parseColorDefinition ["0 !COLOUR Red KODE 4"] =
      .error (.parseError (.InvalidToken "KODE"))
    ∧ (ColorDefinitionParseError.parseError (.InvalidToken "KODE")).lineNumber = none :=
  ⟨by rfl, by rfl⟩

/-- Claim C5: every literal BFC phrase of the sub-grammar — `NOCERTIFY`,
`CERTIFY`, `CERTIFY CW`, `CERTIFY CCW` as document certification and `CW`,
`CCW`, `CLIP`, `CLIP CW`, `CLIP CCW`, `NOCLIP`, `INVERTNEXT` as
per-statement directives — parses to its documented tagged value, bare
`CERTIFY` defaults to counter-clockwise winding, and any other phrase
yields an invalid-BFC-statement error carrying the offending text. -/
theorem C5_bfc_phrase_table :
    parseBfcStatement "NOCERTIFY".data = .ok (.bfcCertification .NoCertify)
    ∧ parseBfcStatement "CERTIFY".data = .ok (.bfcCertification (.Certify .Ccw))
    ∧ parseBfcStatement "CERTIFY CW".data = .ok (.bfcCertification (.Certify .Cw))
    ∧ parseBfcStatement "CERTIFY CCW".data = .ok (.bfcCertification (.Certify .Ccw))
    ∧ parseBfcStatement "CW".data = .ok (.meta (.bfc (.winding .Cw)))
    ∧ parseBfcStatement "CCW".data = .ok (.meta (.bfc (.winding .Ccw)))
    ∧ parseBfcStatement "CLIP".data = .ok (.meta (.bfc (.clip none)))
    ∧ parseBfcStatement "CLIP CW".data = .ok (.meta (.bfc (.clip (some .Cw))))
    ∧ parseBfcStatement "CLIP CCW".data = .ok (.meta (.bfc (.clip (some .Ccw))))
    ∧ parseBfcStatement "NOCLIP".data = .ok (.meta (.bfc .noClip))
    ∧ parseBfcStatement "INVERTNEXT".data = .ok (.meta (.bfc .invertNext))
    ∧ ∀ (cs rest : List Char) (stmt : String),
        nextToken cs true = (.ok stmt, rest) →
        stmt ∉ ["NOCERTIFY", "CERTIFY", "CERTIFY CCW", "CERTIFY CW", "CW", "CCW",
                "CLIP", "CLIP CW", "CLIP CCW", "NOCLIP", "INVERTNEXT"] →
        parseBfcStatement cs = .error (.InvalidBfcStatement stmt) := by
  refine ⟨by rfl, by rfl, by rfl, by rfl, by rfl, by rfl, by rfl, by rfl, by rfl,
          by rfl, by rfl, ?_⟩
  intro cs rest stmt h hmem
  simp only [parseBfcStatement, h]
  split <;> simp_all

/-- Witness for C5 at the unknown phrase `BOGUS`. -/
theorem C5_bfc_phrase_table_witness :
    parseBfcStatement "BOGUS".data = .error (.InvalidBfcStatement "BOGUS") :=
  C5_bfc_phrase_table.2.2.2.2.2.2.2.2.2.2.2 "BOGUS".data [] "BOGUS" (by rfl) (by decide)

/-- Claim C3 counterexample: for the part-reference line
`1 16 1 2 3 4 5 6 7 8 9 10 11 12 part.dat` the first row of the assembled
matrix is `(4, 5, 6, 1)` — the fifth, sixth, seventh and second float
tokens — not `(2, 3, 4, 1)` as the claimed interleaving (second float
token bound to r11) would give. -/
theorem C3_counterexample :
    parseLine1 [] "16 1 2 3 4 5 6 7 8 9 10 11 12 part.dat".data =
      .ok { color := .unknown 16,
            matrix := ⟨⟨4, 7, 10, 0⟩, ⟨5, 8, 11, 0⟩, ⟨6, 9, 12, 0⟩, ⟨1, 2, 3, 1⟩⟩,
            name := ⟨"part.dat"⟩ }
    ∧ (Matrix4.mk ⟨4, 7, 10, 0⟩ ⟨5, 8, 11, 0⟩ ⟨6, 9, 12, 0⟩ ⟨1, 2, 3, 1⟩).row0 = (4, 5, 6, 1)
    ∧ ((4 : ℚ), (5 : ℚ), (6 : ℚ), (1 : ℚ)) ≠ ((2 : ℚ), (3 : ℚ), (4 : ℚ), (1 : ℚ)) :=
  ⟨by decide, by rfl, by decide⟩

/-- Claim C3 as amended: after the colour code the parser reads the twelve
floats in the source order x, y, z, r11, r12, r13, r21, r22, r23, r31,
r32, r33 (so the first float token binds to x, the second to y, the third
to z and the fourth to r11), then a glob-mode model name, and the
assembled homogeneous matrix has rows (r11 r12 r13 x), (r21 r22 r23 y),
(r31 r32 r33 z), (0 0 0 1). -/
theorem C3_part_reference_matrix (materials : MaterialRegistry)
    (cs0 cs1 cs2 cs3 cs4 cs5 cs6 cs7 cs8 cs9 cs10 cs11 cs12 cs13 cs14 : List Char)
    (colorCode : Nat) (x y z r11 r12 r13 r21 r22 r23 r31 r32 r33 : ℚ) (nm : String)
    (hc : nextTokenU32 cs0 = (.ok colorCode, cs1))
    (hx : nextTokenF32 cs1 = (.ok x, cs2))
    (hy : nextTokenF32 cs2 = (.ok y, cs3))
    (hz : nextTokenF32 cs3 = (.ok z, cs4))
    (h11 : nextTokenF32 cs4 = (.ok r11, cs5))
    (h12 : nextTokenF32 cs5 = (.ok r12, cs6))
    (h13 : nextTokenF32 cs6 = (.ok r13, cs7))
    (h21 : nextTokenF32 cs7 = (.ok r21, cs8))
    (h22 : nextTokenF32 cs8 = (.ok r22, cs9))
    (h23 : nextTokenF32 cs9 = (.ok r23, cs10))
    (h31 : nextTokenF32 cs10 = (.ok r31, cs11))
    (h32 : nextTokenF32 cs11 = (.ok r32, cs12))
    (h33 : nextTokenF32 cs12 = (.ok r33, cs13))
    (hnm : nextToken cs13 true = (.ok nm, cs14)) :
    parseLine1 materials cs0 =
      .ok { color := ColorReference.resolve colorCode materials,
            matrix := (Matrix4.new r11 r12 r13 x r21 r22 r23 y r31 r32 r33 z 0 0 0 1).transpose,
            name := PartAlias.fromString nm }
    ∧ ((Matrix4.new r11 r12 r13 x r21 r22 r23 y r31 r32 r33 z 0 0 0 1).transpose).row0 =
        (r11, r12, r13, x)
    ∧ ((Matrix4.new r11 r12 r13 x r21 r22 r23 y r31 r32 r33 z 0 0 0 1).transpose).row1 =
        (r21, r22, r23, y)
    ∧ ((Matrix4.new r11 r12 r13 x r21 r22 r23 y r31 r32 r33 z 0 0 0 1).transpose).row2 =
        (r31, r32, r33, z)
    ∧ ((Matrix4.new r11 r12 r13 x r21 r22 r23 y r31 r32 r33 z 0 0 0 1).transpose).row3 =
        (0, 0, 0, 1) := by
  refine ⟨?_, by rfl, by rfl, by rfl, by rfl⟩
  simp only [parseLine1, pbind, hc, hx, hy, hz, h11, h12, h13, h21, h22, h23,
    h31, h32, h33, hnm]

/-- Witness for C3 on the line `1 16 1 2 3 4 5 6 7 8 9 10 11 12 part.dat`. -/
theorem C3_part_reference_matrix_witness :
    parseLine1 [] "16 1 2 3 4 5 6 7 8 9 10 11 12 part.dat".data =
      .ok { color := ColorReference.resolve 16 [],
            matrix := (Matrix4.new 4 5 6 1 7 8 9 2 10 11 12 3 0 0 0 1).transpose,
            name := PartAlias.fromString "part.dat" } :=
  (C3_part_reference_matrix []
    "16 1 2 3 4 5 6 7 8 9 10 11 12 part.dat".data
    "1 2 3 4 5 6 7 8 9 10 11 12 part.dat".data
    "2 3 4 5 6 7 8 9 10 11 12 part.dat".data
    "3 4 5 6 7 8 9 10 11 12 part.dat".data
    "4 5 6 7 8 9 10 11 12 part.dat".data
    "5 6 7 8 9 10 11 12 part.dat".data
    "6 7 8 9 10 11 12 part.dat".data
    "7 8 9 10 11 12 part.dat".data
    "8 9 10 11 12 part.dat".data
    "9 10 11 12 part.dat".data
    "10 11 12 part.dat".data
    "11 12 part.dat".data
    "12 part.dat".data
    "part.dat".data
    []
    16 1 2 3 4 5 6 7 8 9 10 11 12 "part.dat"
    (by decide) (by decide) (by decide) (by decide) (by decide) (by decide)
    (by decide) (by decide) (by decide) (by decide) (by decide) (by decide)
    (by decide) (by decide)).1

/-- Claim C10: in palette parsing every `ALPHA` and `LUMINANCE` attribute
value — in the `COLOUR` attribute loop and in the GLITTER and SPECKLE
material sub-grammars — is read as a `u32` and stored truncated to its low
8 bits (`as u8`): one loop iteration on an `ALPHA`/`LUMINANCE` token whose
argument parses to `v` continues with the stored byte `v % 256` and no
range check, so values of 256 or more are accepted silently; the last
conjunct runs the whole pipeline on `ALPHA 300`/`LUMINANCE 260`, stored as
44 and 4. -/
theorem C10_alpha_luminance_truncation
    (fuel : Nat) (csA cs1 cs2 csL ds1 ds2 : List Char) (v w : Nat)
    (hA : nextToken csA false = (.ok "ALPHA", cs1))
    (hAv : nextTokenU32 cs1 = (.ok v, cs2))
    (hL : nextToken csL false = (.ok "LUMINANCE", ds1))
    (hLv : nextTokenU32 ds1 = (.ok w, ds2)) :
    (∀ (alpha luminance : Nat) (finish : Finish),
       colourLoopGo (fuel + 1) csA alpha luminance finish =
         colourLoopGo fuel cs2 (v % 256) luminance finish
       ∧ colourLoopGo (fuel + 1) csL alpha luminance finish =
         colourLoopGo fuel ds2 alpha (w % 256) finish)
    ∧ (∀ acc : GlitterAcc,
       glitterLoopGo (fuel + 1) csA acc = glitterLoopGo fuel cs2 { acc with alpha := v % 256 }
       ∧ glitterLoopGo (fuel + 1) csL acc =
           glitterLoopGo fuel ds2 { acc with luminance := w % 256 })
    ∧ (∀ acc : SpeckleAcc,
       speckleLoopGo (fuel + 1) csA acc = speckleLoopGo fuel cs2 { acc with alpha := v % 256 }
       ∧ speckleLoopGo (fuel + 1) csL acc =
           speckleLoopGo fuel ds2 { acc with luminance := w % 256 })
    ∧ parseColorDefinition
        ["0 !COLOUR A CODE 1 VALUE #000000 EDGE #000000 ALPHA 300 LUMINANCE 260"] =
      .ok [(1, { code := 1, name := "A",
                 color := Rgba.new 0 0 0 44, edge := Rgba.new 0 0 0 255,
                 luminance := 4, finish := .Plastic })] := by
  refine ⟨fun alpha luminance finish => ⟨?_, ?_⟩,
          fun acc => ⟨?_, ?_⟩, fun acc => ⟨?_, ?_⟩, by decide⟩
  · simp only [colourLoopGo, hA, hAv]
  · simp only [colourLoopGo, hL, hLv]
  · simp only [glitterLoopGo, hA, hAv]
  · simp only [glitterLoopGo, hL, hLv]
  · simp only [speckleLoopGo, hA, hAv]
  · simp only [speckleLoopGo, hL, hLv]

/-- Witness for C10 at `ALPHA 300` / `LUMINANCE 260`. -/
theorem C10_alpha_luminance_truncation_witness :
    colourLoopGo (9 + 1) "ALPHA 300".data 255 0 .Plastic =
      colourLoopGo 9 [] (300 % 256) 0 .Plastic
    ∧ glitterLoopGo (9 + 1) "LUMINANCE 260".data ⟨255, 0, 0, 0, 0, 0, 0⟩ =
      glitterLoopGo 9 [] ⟨255, 260 % 256, 0, 0, 0, 0, 0⟩ := by
  have h := C10_alpha_luminance_truncation 9
    "ALPHA 300".data "300".data [] "LUMINANCE 260".data "260".data [] 300 260
    (by decide) (by decide) (by decide) (by decide)
  exact ⟨(h.1 255 0 .Plastic).1, (h.2.1 ⟨255, 0, 0, 0, 0, 0, 0⟩).2⟩

/-- Claim C1: in multi-part mode a decoded `FILE` directive line is
discarded while the description accumulator is still empty (no field set,
parsing continues with the same state), and once the description is
non-empty it stops the current document immediately — the remaining lines
are left unconsumed and the captured name is returned as the pending
sub-model name — under which the driver stores the next parsed document in
the subparts map. -/
theorem C1_multipart_file_boundary (materials : MaterialRegistry) (line : String)
    (it : List Char) (nm : String)
    (h0 : nextToken line.data false = (.ok "0", it))
    (h1 : parseLine0 it = .ok (.file nm)) :
    (∀ (st : PState) (i : Nat) (rest : List String), st.description = "" →
       parseInnerLoop materials true (line :: rest) i st =
         parseInnerLoop materials true rest (i + 1) st)
    ∧ (∀ (st : PState) (i : Nat) (rest : List String), st.description ≠ "" →
       parseInnerLoop materials true (line :: rest) i st =
         .ok (st.toDocument, some nm, rest, i + 1))
    ∧ (∀ (ls rest2 rest3 : List String) (i2 i3 : Nat) (body part : Document),
        parseInnerLoop materials true ls 0 initState = .ok (body, some nm, rest2, i2) →
        parseInnerLoop materials true rest2 i2 initState = .ok (part, none, rest3, i3) →
        parseMultipartDocument materials ls =
          .ok ⟨body, [(PartAlias.fromString nm, part)]⟩) := by
  refine ⟨?_, ?_, ?_⟩
  · intro st i rest hdesc
    simp [parseInnerLoop, stepLine, h0, h1, hdesc]
  · intro st i rest hdesc
    simp [parseInnerLoop, stepLine, h0, h1, hdesc]
  · intro ls rest2 rest3 i2 i3 body part h2 h3
    simp only [parseMultipartDocument, h2, parseMpLoop, parseMpLoopGo, h3]
    simp [insertSubpart]

/-- Witness for C1 on the stream
`0 FILE a.ldr / 0 description / 0 FILE sub.ldr / 0 sub desc`. -/
theorem C1_multipart_file_boundary_witness :
    parseInnerLoop [] true ["0 FILE skip.ldr"] 0 initState =
      parseInnerLoop [] true [] 1 initState
    ∧ parseInnerLoop [] true ["0 FILE sub.ldr"] 5 ⟨"", "", "d", .NotApplicable, [], []⟩ =
      .ok (PState.toDocument ⟨"", "", "d", .NotApplicable, [], []⟩, some "sub.ldr", [], 5 + 1)
    ∧ parseMultipartDocument []
        ["0 FILE a.ldr", "0 description", "0 FILE sub.ldr", "0 sub desc"] =
      .ok ⟨⟨"", "description", "", .NotApplicable, [], []⟩,
           [(PartAlias.fromString "sub.ldr", ⟨"", "sub desc", "", .NotApplicable, [], []⟩)]⟩ := by
  have ha := C1_multipart_file_boundary [] "0 FILE skip.ldr" "FILE skip.ldr".data
    "skip.ldr" (by decide) (by decide)
  have hb := C1_multipart_file_boundary [] "0 FILE sub.ldr" "FILE sub.ldr".data
    "sub.ldr" (by decide) (by decide)
  refine ⟨ha.1 initState 0 [] (by decide), hb.2.1 _ 5 [] (by decide), ?_⟩
  exact hb.2.2 ["0 FILE a.ldr", "0 description", "0 FILE sub.ldr", "0 sub desc"]
    ["0 sub desc"] [] 3 4
    ⟨"", "description", "", .NotApplicable, [], []⟩
    ⟨"", "sub desc", "", .NotApplicable, [], []⟩
    (by decide) (by decide)

/-- Claim C6: in single-document mode a decoded `FILE` directive line —
whatever its position in the stream and whatever the accumulated state,
description set or not — aborts the parse with the
multipart-document-not-allowed kind wrapped with that line's 1-based
number. -/
theorem C6_single_mode_rejects_file (materials : MaterialRegistry) (line : String)
    (it : List Char) (nm : String)
    (h0 : nextToken line.data false = (.ok "0", it))
    (h1 : parseLine0 it = .ok (.file nm)) :
    (∀ (st : PState) (i : Nat) (rest : List String),
       parseInnerLoop materials false (line :: rest) i st =
         .error ⟨i + 1, .MultipartDocument⟩)
    ∧ (∀ (pre post : List String) (st' : PState),
        runKept materials false pre 0 initState = .ok (some st') →
        parseSingleDocument materials (pre ++ line :: post) =
          .error ⟨pre.length + 1, .MultipartDocument⟩) := by
  have hstep : ∀ st : PState, stepLine materials false line st = .error .MultipartDocument := by
    intro st
    simp [stepLine, h0, h1]
  refine ⟨?_, ?_⟩
  · intro st i rest
    simp [parseInnerLoop, hstep]
  · intro pre post st' hpre
    have happ := parseInnerLoop_append materials false pre (line :: post) 0 initState st' hpre
    simp only [parseSingleDocument, happ, parseInnerLoop, hstep]
    simp

/-- Witness for C6: a `FILE` line rejected on line 2 of a single-document
parse. -/
theorem C6_single_mode_rejects_file_witness :
    parseSingleDocument [] (["0 somedesc"] ++ "0 FILE a.ldr" :: []) =
      .error ⟨1 + 1, .MultipartDocument⟩ :=
  (C6_single_mode_rejects_file [] "0 FILE a.ldr" "FILE a.ldr".data "a.ldr"
    (by decide) (by decide)).2 ["0 somedesc"] []
    ⟨"", "", "somedesc", .NotApplicable, [], []⟩ (by decide)

/-- Claim C7 as amended: errors of `parseSingleDocument` and
`parseMultipartDocument` always carry a positive (1-based) originating
line number together with the error kind, and `parseColorDefinitions`
propagates the inner document parse's error verbatim, wrapped as the
document-parse variant — but the palette parser's own `COLOUR`-grammar
errors (see the counterexample) carry the kind alone, with no line
number. -/
theorem C7_errors_carry_line_numbers :
    (∀ (materials : MaterialRegistry) (ls : List String) (e : DocumentParseError),
       parseSingleDocument materials ls = .error e → 1 ≤ e.line)
    ∧ (∀ (materials : MaterialRegistry) (ls : List String) (e : DocumentParseError),
       parseMultipartDocument materials ls = .error e → 1 ≤ e.line)
    ∧ (∀ (ls : List String) (e : DocumentParseError),
       parseSingleDocument [] ls = .error e →
         parseColorDefinition ls = .error (.documentParseError e) ∧ 1 ≤ e.line) := by
  have hsingle : ∀ (materials : MaterialRegistry) (ls : List String) (e : DocumentParseError),
      parseSingleDocument materials ls = .error e → 1 ≤ e.line := by
    intro materials ls e h
    simp only [parseSingleDocument] at h
    cases hin : parseInnerLoop materials false ls 0 initState with
    | error e' =>
      rw [hin] at h
      simp only [Except.error.injEq] at h
      have := parseInnerLoop_error_ge materials false ls 0 initState e' hin
      subst h
      omega
    | ok res =>
      rw [hin] at h
      obtain ⟨d, n, r, j⟩ := res
      simp at h
  refine ⟨hsingle, ?_, ?_⟩
  · intro materials ls e h
    simp only [parseMultipartDocument] at h
    cases hin : parseInnerLoop materials true ls 0 initState with
    | error e' =>
      rw [hin] at h
      simp only [Except.error.injEq] at h
      have := parseInnerLoop_error_ge materials true ls 0 initState e' hin
      subst h
      omega
    | ok res =>
      rw [hin] at h
      obtain ⟨d, n, r, j⟩ := res
      cases n with
      | none => simp at h
      | some nm =>
        simp only [parseMpLoop] at h
        cases hmp : parseMpLoopGo materials (r.length + 1) nm r j [] with
        | error e' =>
          rw [hmp] at h
          simp only [Except.error.injEq] at h
          have := parseMpLoopGo_error_ge materials (r.length + 1) nm r j [] e'
            (by omega) hmp
          subst h
          omega
        | ok subs => rw [hmp] at h; simp at h
  · intro ls e h
    constructor
    · simp [parseColorDefinition, h]
    · exact hsingle [] ls e h

/-- Witness for C7 at the malformed line `9` (an unexpected dispatch
token), rejected on line 1. -/
theorem C7_errors_carry_line_numbers_witness :
    1 ≤ (DocumentParseError.mk 1 (.UnexpectedCommand "9")).line
    ∧ parseColorDefinition ["9"] =
        .error (.documentParseError ⟨1, .UnexpectedCommand "9"⟩) := by
  have h := C7_errors_carry_line_numbers
  exact ⟨h.1 [] ["9"] ⟨1, .UnexpectedCommand "9"⟩ (by decide),
         (h.2.2 ["9"] ⟨1, .UnexpectedCommand "9"⟩ (by decide)).1⟩

end LDraw
